import Mathlib

/-!
Verification of the clipsai trailer-generation service.

The development shallowly embeds the core of the repository:

* `Clip` (src/clipsai/clip/clip.py): a value object with five fields;
  its Python truthiness (`__bool__`), structural equality (`__eq__`),
  `copy` and `to_dict` round trips.
* `TrailerGenerator.generate_basic_trailer` (src/clipsai/trailer/trailer.py):
  sorting and selection of clips, the trim loop, concatenation, and the
  try/except/finally workspace-cleanup discipline.  Collaborators
  (Transcriber, ClipFinder, MediaEditor) and filesystem operations are
  modelled as oracles (`Outcome`) supplied through an environment record,
  and the observable behaviour of a run is a result plus a trace of events.
* `process_trailer_generation_task` and `create_trailer`
  (src/app/main.py): the job wrapper (fetch, pipeline, publish, cleanup)
  and the scheduling endpoint.
* `parse_s3_url` (src/app/s3_utils.py), including the relevant fragment of
  Python's `urllib.parse.urlparse`.

Python floats are modelled as rationals (no rounding is exercised by the
specified behaviour) and Python ints as `Int`.  Filesystem paths are lists
of path components.
-/

namespace ClipsAI

/-- Value object from src/clipsai/clip/clip.py.  `start_time`, `end_time`
and `score` are Python floats (modelled as `Rat`); `start_char` and
`end_char` are Python ints. -/
structure Clip where
  start_time : Rat
  end_time : Rat
  start_char : Int
  end_char : Int
  score : Rat
deriving DecidableEq, Repr

/-- Embedding of `Clip.__bool__`: the conjunction of the Python truthiness
of the four positional fields (`bool(x)` for a number is `x != 0`); the
`score` field is not consulted. -/
def Clip.boolPy (c : Clip) : Bool :=
  decide (c.start_time ≠ 0) && decide (c.end_time ≠ 0) &&
    decide (c.start_char ≠ 0) && decide (c.end_char ≠ 0)

/-- Embedding of `Clip.copy`: a new Clip built from the five fields. -/
def Clip.copy (c : Clip) : Clip :=
  ⟨c.start_time, c.end_time, c.start_char, c.end_char, c.score⟩

/-- Dictionary produced by `Clip.to_dict`: five keyed entries. -/
structure ClipDict where
  start_time : Rat
  end_time : Rat
  start_char : Int
  end_char : Int
  score : Rat
deriving DecidableEq, Repr

/-- Embedding of `Clip.to_dict`. -/
def Clip.to_dict (c : Clip) : ClipDict :=
  ⟨c.start_time, c.end_time, c.start_char, c.end_char, c.score⟩

/-- A Clip constructed from the five entries of a dictionary (the
`Clip(...)` constructor applied to a `to_dict` result). -/
def clipFromDict (d : ClipDict) : Clip :=
  ⟨d.start_time, d.end_time, d.start_char, d.end_char, d.score⟩

/-- A Python value compared against a Clip: either another Clip or any
non-Clip object (`isinstance` failure collapses all of those). -/
inductive PyValue where
  | clip (c : Clip)
  | nonClip
deriving DecidableEq

/-- Embedding of `Clip.__eq__`: `False` for a non-Clip, otherwise the
conjunction of the five field equalities. -/
def Clip.eqPy (c : Clip) : PyValue → Bool
  | .clip d =>
    decide (c.start_time = d.start_time) && decide (c.end_time = d.end_time) &&
      decide (c.start_char = d.start_char) && decide (c.end_char = d.end_char) &&
      decide (c.score = d.score)
  | .nonClip => false

/-- Embedding of `Clip.__ne__`: negation of `__eq__`. -/
def Clip.nePy (c : Clip) (v : PyValue) : Bool := !(c.eqPy v)

/-! ### Sorting and selection (src/clipsai/trailer/trailer.py, lines 120-141)

`clips.sort(key=lambda clip: clip.score, reverse=True)` is Python's stable
sort in descending score order.  It is embedded as insertion sort with the
relation "left score is at least right score", which is a stable descending
sort; stability is proved below (`sortedClips_filter_score`), so the
embedding carries exactly the guarantees Python documents. -/

/-- Comparison used by the descending sort: `a` may precede `b` when
`a.score ≥ b.score`. -/
def descRel (a b : Clip) : Prop := b.score ≤ a.score

instance : DecidableRel descRel := fun a b =>
  inferInstanceAs (Decidable (b.score ≤ a.score))

instance : IsTotal Clip descRel := ⟨fun a b => (le_total b.score a.score)⟩

instance : IsTrans Clip descRel :=
  ⟨fun _ _ _ hab hbc => le_trans hbc hab⟩

/-- Embedding of `clips.sort(key=lambda clip: clip.score, reverse=True)`:
the stable descending-by-score sort of the discovered clips. -/
def sortedClips (clips : List Clip) : List Clip :=
  List.insertionSort descRel clips

/-- Embedding of the selection step (trailer.py lines 128-141): with a
positive `num_clips_to_select` take the first `min(n, len(clips))` sorted
clips, otherwise use all sorted clips. -/
def selectClips (clips : List Clip) (num_clips_to_select : Int) : List Clip :=
  let sorted := sortedClips clips
  if 0 < num_clips_to_select then
    sorted.take (min num_clips_to_select.toNat sorted.length)
  else
    sorted

/-! ### Stability of the sort -/

lemma filter_score_orderedInsert (s : Rat) (a : Clip) (l : List Clip) :
    (List.orderedInsert descRel a l).filter (fun c => c.score == s) =
      if a.score == s then a :: l.filter (fun c => c.score == s)
      else l.filter (fun c => c.score == s) := by
  induction l with
  | nil =>
    by_cases hs : a.score == s <;> simp [List.orderedInsert, hs]
  | cons b t ih =>
    by_cases hd : descRel a b
    · rw [List.orderedInsert_of_le _ _ hd]
      by_cases hs : a.score == s <;> simp [List.filter_cons, hs]
    · have hstep : List.orderedInsert descRel a (b :: t) =
          b :: List.orderedInsert descRel a t := by
        simp [List.orderedInsert, hd]
      rw [hstep]
      by_cases hs : a.score == s
      · have hlt : a.score < b.score := lt_of_not_le hd
        have hbs : (b.score == s) = false := by
          simp only [beq_iff_eq] at hs ⊢
          rw [hs] at hlt
          exact beq_eq_false_iff_ne.mpr (ne_of_gt hlt)
        simp [List.filter_cons, hbs, ih, hs]
      · simp [List.filter_cons, ih, hs]

/-- Stability of the embedded sort: for every score value, the clips
holding that score appear in the sorted output in exactly their discovery
order. -/
lemma sortedClips_filter_score (s : Rat) (l : List Clip) :
    (sortedClips l).filter (fun c => c.score == s) =
      l.filter (fun c => c.score == s) := by
  induction l with
  | nil => rfl
  | cons a t ih =>
    show (List.orderedInsert descRel a (List.insertionSort descRel t)).filter _ = _
    rw [filter_score_orderedInsert]
    by_cases hs : a.score == s <;>
      simp only [hs, if_true, if_false, List.filter_cons] <;>
      simp [sortedClips] at ih <;> simp [ih, hs]

lemma sortedClips_perm (l : List Clip) : (sortedClips l).Perm l :=
  List.perm_insertionSort descRel l

lemma sortedClips_length (l : List Clip) : (sortedClips l).length = l.length :=
  (sortedClips_perm l).length_eq

lemma sortedClips_sorted (l : List Clip) : (sortedClips l).Sorted descRel :=
  List.sorted_insertionSort descRel l

lemma selectClips_ne_nil (clips : List Clip) (n : Int) (h : clips ≠ []) :
    selectClips clips n ≠ [] := by
  have hlen : (sortedClips clips).length = clips.length := sortedClips_length clips
  have hpos : 0 < clips.length := List.length_pos.mpr h
  unfold selectClips
  by_cases hn : 0 < n
  · simp only [hn, if_true]
    intro hnil
    have := congrArg List.length hnil
    simp only [List.length_take, hlen, List.length_nil] at this
    have hn1 : 1 ≤ n.toNat := by omega
    omega
  · simp only [hn, if_false]
    intro hnil
    rw [hnil] at hlen
    simp at hlen
    omega

/-! ### Demonstration values (the spec's scenario: discovery scores
0.2, 0.9, 0.5, here scaled to tenths: 2, 9, 5) -/

def demoClipA : Clip := ⟨0, 10, 0, 5, 2⟩

def demoClipB : Clip := ⟨10, 20, 5, 9, 9⟩

def demoClipC : Clip := ⟨20, 30, 9, 14, 5⟩

def demoClips : List Clip := [demoClipA, demoClipB, demoClipC]

/-- C1: for `maxClips > 0` the selected sequence is the first
`min(maxClips, len(clips))` clips of the input sorted by score descending
with a stable sort, and for `maxClips ≤ 0` it is the whole stably sorted
input.  `sortedClips` (the embedding of `clips.sort(key=..., reverse=True)`)
is pinned down by the first three conjuncts: it is a permutation of the
input, sorted by descending score, and stable (clips of every fixed score
keep their discovery order). -/
theorem c1_sort_select (clips : List Clip) (n : Int) :
    (sortedClips clips).Perm clips
    ∧ (sortedClips clips).Sorted descRel
    ∧ (∀ s : Rat, (sortedClips clips).filter (fun c => c.score == s) =
        clips.filter (fun c => c.score == s))
    ∧ (0 < n → selectClips clips n =
        (sortedClips clips).take (min n.toNat clips.length))
    ∧ (0 < n → (selectClips clips n).length = min n.toNat clips.length)
    ∧ (n ≤ 0 → selectClips clips n = sortedClips clips) := by
  refine ⟨sortedClips_perm clips, sortedClips_sorted clips,
    fun s => sortedClips_filter_score s clips, ?_, ?_, ?_⟩
  · intro hn
    unfold selectClips
    simp [hn, sortedClips_length]
  · intro hn
    unfold selectClips
    simp only [hn, if_true, List.length_take, sortedClips_length]
    omega
  · intro hn
    have hn2 : ¬ 0 < n := not_lt.mpr hn
    unfold selectClips
    simp [hn2]

/-- Witness for C1 at the spec's scenario (scores 0.2, 0.9, 0.5 in
discovery order): with `maxClips = 2` the selection is the two sorted
clips `[0.9-clip, 0.5-clip]`, and with `maxClips = -1` the whole sorted
list is selected. -/
theorem c1_sort_select_witness :
    selectClips demoClips 2 =
      (sortedClips demoClips).take (min (2 : Int).toNat demoClips.length)
    ∧ selectClips demoClips (-1) = sortedClips demoClips
    ∧ selectClips demoClips 2 = [demoClipB, demoClipC]
    ∧ sortedClips demoClips = [demoClipB, demoClipC, demoClipA] :=
  ⟨(c1_sort_select demoClips 2).2.2.2.1 (by decide),
   (c1_sort_select demoClips (-1)).2.2.2.2.2 (by decide),
   by decide, by decide⟩

/-- C9: a Clip's Python truthiness is `False` exactly when one of
`start_time`, `end_time`, `start_char`, `end_char` is zero; the `score`
field never affects it (an all-zero Clip with score 5 is falsy, a Clip
with nonzero positional fields and score 0 is truthy). -/
theorem c9_clip_truthiness (c : Clip) :
    (c.boolPy = false ↔
      (c.start_time = 0 ∨ c.end_time = 0 ∨ c.start_char = 0 ∨ c.end_char = 0))
    ∧ (∀ s : Rat,
        Clip.boolPy ⟨c.start_time, c.end_time, c.start_char, c.end_char, s⟩ =
          c.boolPy)
    ∧ Clip.boolPy ⟨0, 0, 0, 0, 5⟩ = false
    ∧ Clip.boolPy ⟨1, 2, 3, 4, 0⟩ = true := by
  refine ⟨?_, fun s => rfl, by decide, by decide⟩
  unfold Clip.boolPy
  simp only [Bool.and_eq_false_iff, decide_eq_false_iff_not, not_not]
  tauto

/-- C10: `copy` and `to_dict`-then-construct both reproduce a Clip equal
to the original under `__eq__`; `__eq__` between Clips holds exactly when
all five fields agree; comparison with a non-Clip value is unequal. -/
theorem c10_clip_roundtrips (c d : Clip) :
    c.copy.eqPy (.clip c) = true
    ∧ (clipFromDict c.to_dict).eqPy (.clip c) = true
    ∧ (c.eqPy (.clip d) = true ↔ c = d)
    ∧ c.eqPy .nonClip = false
    ∧ c.nePy .nonClip = true := by
  refine ⟨?_, ?_, ?_, rfl, rfl⟩
  · simp [Clip.copy, Clip.eqPy]
  · simp [clipFromDict, Clip.to_dict, Clip.eqPy]
  · cases c
    cases d
    simp [Clip.eqPy, Clip.mk.injEq]
    tauto

/-! ### Pipeline model (src/clipsai/trailer/trailer.py, generate_basic_trailer)

Filesystem paths are lists of components.  Each collaborator call and each
fallible filesystem operation is an oracle in an environment record: it
can return a usable value (`ok`), return `None`/a falsy or wrongly typed
value (`absent`), or raise (`raises`).  A run produces a result (`none`
models returning Python `None`), a flag recording whether an exception
escaped `generate_basic_trailer`, and the trace of observable events in
program order. -/

/-- Filesystem path, as a list of components. -/
abbrev FsPath := List String

/-- Result of one collaborator or filesystem call: a usable value, a
`None`/falsy/wrongly-typed value, or a raised exception. -/
inductive Outcome (α : Type) where
  | ok (a : α)
  | absent
  | raises
deriving DecidableEq

/-- Transcription handle: the list of utterances is the only part the
trailer code inspects (and only for a log message). -/
abbrev Transcription := List String

/-- Observable events of one `generate_basic_trailer` run, in program
order. -/
inductive Event where
  | wsCreated (p : FsPath)
  | transcribeCalled
  | findClipsCalled
  | trimCalled (i : Nat) (c : Clip) (dest : FsPath)
  | concatCalled (files : List FsPath) (dest : FsPath)
  | wsDeleted (p : FsPath)
deriving DecidableEq

/-- Environment of one run: validation outcomes, filesystem behaviour and
collaborator behaviour. -/
structure Env where
  sourceValid : Bool
  outputParentValid : Bool
  mkBaseDirRaises : Bool
  mkWsRaises : Bool
  transcribe : Outcome Transcription
  find_clips : Transcription → Outcome (List Clip)
  trim : Nat → Clip → Outcome Unit
  concatenate : List FsPath → Outcome Unit
  deleteWsRaises : Bool

/-- Outcome of a whole run: the returned value (`none` = Python `None`),
whether an exception escaped the function, and the event trace. -/
structure RunResult where
  result : Option FsPath
  raised : Bool
  events : List Event
deriving DecidableEq

/-- Base directory `/tmp/clipsai_trailers` (trailer.py line 90). -/
def baseTempDir : FsPath := ["tmp", "clipsai_trailers"]

/-- Pipeline workspace `/tmp/clipsai_trailers/trailer_{uuid}`. -/
def wsDirPath (uuid : String) : FsPath := baseTempDir ++ ["trailer_" ++ uuid]

/-- Per-clip destination `{workspace}/clip_{i}.mp4` (trailer.py line 151). -/
def clipDest (ws : FsPath) (i : Nat) : FsPath :=
  ws ++ ["clip_" ++ toString i ++ ".mp4"]

/-- Embedding of the trim loop (trailer.py lines 143-165): returns the
surviving trimmed files in order, the trim events, and whether a trim
raised (which aborts the whole `try` block). -/
def trimLoop (env : Env) (ws : FsPath) : Nat → List Clip →
    List FsPath × List Event × Bool
  | _, [] => ([], [], false)
  | i, c :: cs =>
    let dest := clipDest ws i
    match env.trim i c with
    | .raises => ([], [Event.trimCalled i c dest], true)
    | .absent =>
      let r := trimLoop env ws (i + 1) cs
      (r.1, Event.trimCalled i c dest :: r.2.1, r.2.2)
    | .ok _ =>
      let r := trimLoop env ws (i + 1) cs
      (dest :: r.1, Event.trimCalled i c dest :: r.2.1, r.2.2)

/-- Embedding of the body of the `try` block (trailer.py lines 99-184):
transcription, clip finding, sorting/selection, trimming, concatenation.
Any raise inside is caught by the `except` clause, so the body only yields
a result and its events. -/
def tryBody (env : Env) (ws : FsPath) (outputPath : FsPath) (num : Int) :
    Option FsPath × List Event :=
  match env.transcribe with
  | .raises => (none, [Event.transcribeCalled])
  | .absent => (none, [Event.transcribeCalled])
  | .ok t =>
    match env.find_clips t with
    | .raises => (none, [Event.transcribeCalled, Event.findClipsCalled])
    | .absent => (none, [Event.transcribeCalled, Event.findClipsCalled])
    | .ok clips =>
      if clips.isEmpty then
        (none, [Event.transcribeCalled, Event.findClipsCalled])
      else
        let selected := selectClips clips num
        if selected.isEmpty then
          (none, [Event.transcribeCalled, Event.findClipsCalled])
        else
          let tl := trimLoop env ws 0 selected
          let evs := [Event.transcribeCalled, Event.findClipsCalled] ++ tl.2.1
          if tl.2.2 then (none, evs)
          else if tl.1.isEmpty then (none, evs)
          else
            match env.concatenate tl.1 with
            | .ok _ =>
              (some outputPath, evs ++ [Event.concatCalled tl.1 outputPath])
            | _ => (none, evs ++ [Event.concatCalled tl.1 outputPath])

/-- Embedding of the `finally` clause (trailer.py lines 189-196): if the
workspace exists it is deleted; a raise from the deletion is caught and
logged. -/
def finallyClean (env : Env) (ws : FsPath) (evs : List Event)
    (res : Option FsPath) : RunResult :=
  if env.deleteWsRaises then ⟨res, false, evs⟩
  else ⟨res, false, evs ++ [Event.wsDeleted ws]⟩

/-- Embedding of `TrailerGenerator.generate_basic_trailer`.  Validation
failures return `None` before anything else happens; a raise from
`os.makedirs(base_temp_dir)` (line 91, outside every `try`) escapes the
function; after the workspace is created, the `try`/`except`/`finally`
discipline applies. -/
def generate_basic_trailer (env : Env) (uuid : String) (outputPath : FsPath)
    (num : Int) : RunResult :=
  if !env.sourceValid then ⟨none, false, []⟩
  else if !env.outputParentValid then ⟨none, false, []⟩
  else if env.mkBaseDirRaises then ⟨none, true, []⟩
  else
    let ws := wsDirPath uuid
    if env.mkWsRaises then ⟨none, false, []⟩
    else
      let b := tryBody env ws outputPath num
      finallyClean env ws (Event.wsCreated ws :: b.2) b.1

/-- One path is inside the directory named by another when the directory's
components lead the path's components. -/
def dirLeads : FsPath → FsPath → Bool
  | [], _ => true
  | _, [] => false
  | a :: as, b :: bs => a == b && dirLeads as bs

/-- Event classifier: trim calls. -/
def Event.isTrim : Event → Bool
  | .trimCalled _ _ _ => true
  | _ => false

/-- Event classifier: workspace lifecycle events. -/
def Event.isWs : Event → Bool
  | .wsCreated _ => true
  | .wsDeleted _ => true
  | _ => false

lemma trimLoop_no_ws (env : Env) (ws : FsPath) :
    ∀ cs i, ∀ e ∈ (trimLoop env ws i cs).2.1, e.isWs = false := by
  intro cs
  induction cs with
  | nil => intro i e he; simp [trimLoop] at he
  | cons c t ih =>
    intro i e he
    cases hc : env.trim i c <;> simp [trimLoop, hc] at he
    · rcases he with rfl | he
      · rfl
      · exact ih (i + 1) e he
    · rcases he with rfl | he
      · rfl
      · exact ih (i + 1) e he
    · rw [he]; rfl

lemma tryBody_no_ws (env : Env) (ws out : FsPath) (num : Int) :
    ∀ e ∈ (tryBody env ws out num).2, e.isWs = false := by
  intro e he
  unfold tryBody at he
  split at he
  · simp at he; subst he; rfl
  · simp at he; subst he; rfl
  · split at he
    · simp at he; rcases he with rfl | rfl <;> rfl
    · simp at he; rcases he with rfl | rfl <;> rfl
    · split at he
      · simp at he; rcases he with rfl | rfl <;> rfl
      · simp only [] at he
        split at he
        · simp at he; rcases he with rfl | rfl <;> rfl
        · split at he
          · simp at he
            rcases he with rfl | rfl | he
            · rfl
            · rfl
            · exact trimLoop_no_ws env ws _ 0 e he
          · split at he
            · simp at he
              rcases he with rfl | rfl | he
              · rfl
              · rfl
              · exact trimLoop_no_ws env ws _ 0 e he
            · split at he
              · simp at he
                rcases he with rfl | rfl | he | rfl
                · rfl
                · rfl
                · exact trimLoop_no_ws env ws _ 0 e he
                · rfl
              · simp at he
                rcases he with rfl | rfl | he | rfl
                · rfl
                · rfl
                · exact trimLoop_no_ws env ws _ 0 e he
                · rfl

lemma finallyClean_raised (env : Env) (ws : FsPath) (evs : List Event)
    (res : Option FsPath) : (finallyClean env ws evs res).raised = false := by
  unfold finallyClean
  split <;> rfl

/-- All-success environment used to witness the pipeline theorems. -/
def demoEnv : Env :=
  { sourceValid := true, outputParentValid := true, mkBaseDirRaises := false,
    mkWsRaises := false, transcribe := .ok ["hello"],
    find_clips := fun _ => .ok demoClips, trim := fun _ _ => .ok (),
    concatenate := fun _ => .ok (), deleteWsRaises := false }

/-- Environment in which `os.makedirs(base_temp_dir)` (trailer.py line 91)
raises; everything else succeeds. -/
def raisingBaseDirEnv : Env :=
  { demoEnv with mkBaseDirRaises := true }

/-- Environment whose source-file validation fails. -/
def invalidSourceEnv : Env :=
  { demoEnv with sourceValid := false }

/-- C2: whenever the Pipeline workspace was created, it is deleted exactly
once before `generate_basic_trailer` returns, on every exit path, and the
deletion only covers directories the output path does not live in
(hypotheses: the `finally` deletion itself does not raise, and the output
path is not inside the freshly named workspace). -/
theorem c2_workspace_cleanup (env : Env) (uuid : String) (out : FsPath)
    (n : Int) (hdel : env.deleteWsRaises = false)
    (hout : dirLeads (wsDirPath uuid) out = false) :
    (∀ p, Event.wsCreated p ∈ (generate_basic_trailer env uuid out n).events →
      (generate_basic_trailer env uuid out n).events.count (Event.wsDeleted p) = 1)
    ∧ (∀ p, Event.wsDeleted p ∈ (generate_basic_trailer env uuid out n).events →
        dirLeads p out = false) := by
  have hno := tryBody_no_ws env (wsDirPath uuid) out n
  unfold generate_basic_trailer
  cases h1 : env.sourceValid with
  | false => simp
  | true =>
  cases h2 : env.outputParentValid with
  | false => simp
  | true =>
  cases h3 : env.mkBaseDirRaises with
  | true => simp
  | false =>
  cases h4 : env.mkWsRaises with
  | true => simp
  | false =>
  simp only [Bool.not_true, Bool.not_false, if_true, if_false, ite_true,
    ite_false, finallyClean, hdel]
  have hcz : (tryBody env (wsDirPath uuid) out n).2.count
      (Event.wsDeleted (wsDirPath uuid)) = 0 :=
    List.count_eq_zero.mpr (fun hm => by
      have := hno _ hm
      simp [Event.isWs] at this)
  constructor
  · intro p hp
    simp at hp
    rcases hp with rfl | hp
    · simp [List.count_append, List.count_cons, hcz]
    · exact absurd (hno _ hp) (by simp [Event.isWs])
  · intro p hp
    simp at hp
    rcases hp with hp | rfl
    · exact absurd (hno _ hp) (by simp [Event.isWs])
    · exact hout

/-- Witness for C2: in the all-success environment the workspace-deletion
event occurs exactly once. -/
theorem c2_workspace_cleanup_witness :
    (generate_basic_trailer demoEnv "u" ["tmp", "out.mp4"] 5).events.count
      (Event.wsDeleted (wsDirPath "u")) = 1 :=
  (c2_workspace_cleanup demoEnv "u" ["tmp", "out.mp4"] 5 rfl (by decide)).1
    (wsDirPath "u") (by decide)

/-- Counterexample for C4 as stated: when `os.makedirs(base_temp_dir)`
(trailer.py line 91, outside every `try`) raises, the exception escapes
`generate_basic_trailer` instead of being converted to a `None` return. -/
theorem c4_counterexample :
    (generate_basic_trailer raisingBaseDirEnv "u" ["tmp", "out.mp4"] 5).raised
      = true := rfl

/-- C4 (amended): for every environment in which the creation of the
shared base temp directory does not raise, no exception escapes
`generate_basic_trailer`, whatever the collaborators and remaining
filesystem operations do. -/
theorem c4_no_escape_amended (env : Env) (uuid : String) (out : FsPath)
    (n : Int) (h : env.mkBaseDirRaises = false) :
    (generate_basic_trailer env uuid out n).raised = false := by
  unfold generate_basic_trailer
  split
  · rfl
  · split
    · rfl
    · split
      · simp_all
      · split
        · rfl
        · exact finallyClean_raised env (wsDirPath uuid) _ _

/-- Witness for C4 (amended) in the all-success environment. -/
theorem c4_no_escape_amended_witness :
    (generate_basic_trailer demoEnv "u" ["tmp", "out.mp4"] 5).raised = false :=
  c4_no_escape_amended demoEnv "u" ["tmp", "out.mp4"] 5 rfl

/-- C5: when the source file is invalid or the output path's parent
directory is invalid, `generate_basic_trailer` returns `None` without
raising, having created no workspace and invoked no collaborator (the
event trace is empty). -/
theorem c5_validation_short_circuit (env : Env) (uuid : String) (out : FsPath)
    (n : Int) (h : env.sourceValid = false ∨ env.outputParentValid = false) :
    (generate_basic_trailer env uuid out n).result = none
    ∧ (generate_basic_trailer env uuid out n).raised = false
    ∧ (generate_basic_trailer env uuid out n).events = [] := by
  unfold generate_basic_trailer
  rcases h with h | h
  · simp [h]
  · cases h1 : env.sourceValid <;> simp [h, h1]

/-- Witness for C5 with a nonexistent source file. -/
theorem c5_validation_short_circuit_witness :
    (generate_basic_trailer invalidSourceEnv "u" ["tmp", "out.mp4"] 5).result
        = none
    ∧ (generate_basic_trailer invalidSourceEnv "u" ["tmp", "out.mp4"] 5).events
        = [] :=
  ⟨(c5_validation_short_circuit invalidSourceEnv "u" ["tmp", "out.mp4"] 5
      (Or.inl rfl)).1,
   (c5_validation_short_circuit invalidSourceEnv "u" ["tmp", "out.mp4"] 5
      (Or.inl rfl)).2.2⟩

/-- Whether a call produced a usable value. -/
def outcomeOk : Outcome Unit → Bool
  | .ok _ => true
  | _ => false

/-- Specification of the surviving trimmed files: the selected clips whose
trim call returns a usable file, each contributing its indexed destination
path, in selection order. -/
def survivorsOf (env : Env) (ws : FsPath) (sel : List Clip) : List FsPath :=
  ((sel.enum).filter (fun p => outcomeOk (env.trim p.1 p.2))).map
    (fun p => clipDest ws p.1)

/-- Specification of the trim calls: one per selected clip, in selection
order, against the zero-based indexed destination path. -/
def trimEventsOf (ws : FsPath) (sel : List Clip) : List Event :=
  (sel.enum).map (fun p => Event.trimCalled p.1 p.2 (clipDest ws p.1))

lemma trimLoop_no_raise (env : Env) (ws : FsPath)
    (hnr : ∀ j c, env.trim j c ≠ .raises) :
    ∀ cs i, trimLoop env ws i cs =
      (((List.enumFrom i cs).filter (fun p => outcomeOk (env.trim p.1 p.2))).map
          (fun p => clipDest ws p.1),
        (List.enumFrom i cs).map (fun p => Event.trimCalled p.1 p.2 (clipDest ws p.1)),
        false) := by
  intro cs
  induction cs with
  | nil => intro i; rfl
  | cons c t ih =>
    intro i
    cases hc : env.trim i c
    · simp [trimLoop, hc, List.enumFrom, ih (i + 1), outcomeOk, List.filter_cons]
    · simp [trimLoop, hc, List.enumFrom, ih (i + 1), outcomeOk, List.filter_cons]
    · exact absurd hc (hnr i c)

lemma trimEventsOf_filter (ws : FsPath) (sel : List Clip) :
    (trimEventsOf ws sel).filter Event.isTrim = trimEventsOf ws sel :=
  List.filter_eq_self.mpr (by
    intro e he
    simp only [trimEventsOf, List.mem_map] at he
    rcases he with ⟨p, _, rfl⟩
    rfl)

lemma trimEventsOf_count_concat (ws : FsPath) (sel : List Clip)
    (fs : List FsPath) (d : FsPath) :
    (trimEventsOf ws sel).count (Event.concatCalled fs d) = 0 :=
  List.count_eq_zero.mpr (by
    intro hm
    simp only [trimEventsOf, List.mem_map] at hm
    rcases hm with ⟨p, _, hp⟩
    exact Event.noConfusion hp)

lemma concat_not_mem_trimEventsOf (ws : FsPath) (sel : List Clip)
    (fs : List FsPath) (d : FsPath) :
    Event.concatCalled fs d ∉ trimEventsOf ws sel :=
  List.count_eq_zero.mp (trimEventsOf_count_concat ws sel fs d)

lemma trimLoop_zero (env : Env) (ws : FsPath) (sel : List Clip)
    (hnr : ∀ j c, env.trim j c ≠ .raises) :
    trimLoop env ws 0 sel = (survivorsOf env ws sel, trimEventsOf ws sel, false) :=
  trimLoop_no_raise env ws hnr sel 0

lemma isEmpty_false_of_ne_nil {α : Type} {l : List α} (h : l ≠ []) :
    l.isEmpty = false := by
  cases l with
  | nil => exact absurd rfl h
  | cons a t => rfl

lemma tryBody_characterization (env : Env) (uuid : String) (out : FsPath)
    (n : Int) (t : Transcription) (h5 : env.transcribe = .ok t)
    (clips : List Clip) (h6 : env.find_clips t = .ok clips) (h7 : clips ≠ [])
    (h8 : ∀ j c, env.trim j c ≠ .raises) :
    tryBody env (wsDirPath uuid) out n =
      (if (survivorsOf env (wsDirPath uuid) (selectClips clips n)).isEmpty then
        (none, [Event.transcribeCalled, Event.findClipsCalled] ++
          trimEventsOf (wsDirPath uuid) (selectClips clips n))
      else
        match env.concatenate
            (survivorsOf env (wsDirPath uuid) (selectClips clips n)) with
        | .ok _ =>
          (some out, [Event.transcribeCalled, Event.findClipsCalled] ++
            trimEventsOf (wsDirPath uuid) (selectClips clips n) ++
            [Event.concatCalled
              (survivorsOf env (wsDirPath uuid) (selectClips clips n)) out])
        | _ =>
          (none, [Event.transcribeCalled, Event.findClipsCalled] ++
            trimEventsOf (wsDirPath uuid) (selectClips clips n) ++
            [Event.concatCalled
              (survivorsOf env (wsDirPath uuid) (selectClips clips n)) out])) := by
  have hce : clips.isEmpty = false := isEmpty_false_of_ne_nil h7
  have hse : (selectClips clips n).isEmpty = false :=
    isEmpty_false_of_ne_nil (selectClips_ne_nil clips n h7)
  unfold tryBody
  simp only [h5, h6, hce, Bool.false_eq_true, if_false,
    trimLoop_zero env (wsDirPath uuid) (selectClips clips n) h8, hse]

/-- C3: when a run reaches the trim stage (validation, workspace
creation, transcription and clip finding all succeed, no trim call
raises), every selected clip is trimmed, in selection order, to the
zero-based indexed path `clip_{i}` inside the workspace (the trim events
of the trace are exactly those of `trimEventsOf`); clips whose trim
returns an absent result are merely dropped; if no clip survives the run
returns `None` and `concatenate` is never invoked; otherwise `concatenate`
is invoked exactly once, with exactly the surviving trimmed files in
their original selected order, against the output path. -/
theorem c3_trim_then_concat (env : Env) (uuid : String) (out : FsPath)
    (n : Int) (h1 : env.sourceValid = true) (h2 : env.outputParentValid = true)
    (h3 : env.mkBaseDirRaises = false) (h4 : env.mkWsRaises = false)
    (t : Transcription) (h5 : env.transcribe = .ok t)
    (clips : List Clip) (h6 : env.find_clips t = .ok clips) (h7 : clips ≠ [])
    (h8 : ∀ j c, env.trim j c ≠ .raises) :
    ((generate_basic_trailer env uuid out n).events.filter Event.isTrim =
      trimEventsOf (wsDirPath uuid) (selectClips clips n))
    ∧ (survivorsOf env (wsDirPath uuid) (selectClips clips n) = [] →
        (generate_basic_trailer env uuid out n).result = none
        ∧ ∀ fs d, Event.concatCalled fs d ∉
            (generate_basic_trailer env uuid out n).events)
    ∧ (survivorsOf env (wsDirPath uuid) (selectClips clips n) ≠ [] →
        (generate_basic_trailer env uuid out n).events.count
          (Event.concatCalled
            (survivorsOf env (wsDirPath uuid) (selectClips clips n)) out) = 1
        ∧ ∀ fs d,
            Event.concatCalled fs d ∈
              (generate_basic_trailer env uuid out n).events →
            fs = survivorsOf env (wsDirPath uuid) (selectClips clips n)
              ∧ d = out) := by
  have hgen : generate_basic_trailer env uuid out n =
      finallyClean env (wsDirPath uuid)
        (Event.wsCreated (wsDirPath uuid) :: (tryBody env (wsDirPath uuid) out n).2)
        (tryBody env (wsDirPath uuid) out n).1 := by
    unfold generate_basic_trailer
    simp [h1, h2, h3, h4]
  have hchar := tryBody_characterization env uuid out n t h5 clips h6 h7 h8
  by_cases hsv : survivorsOf env (wsDirPath uuid) (selectClips clips n) = []
  · have hie : (survivorsOf env (wsDirPath uuid) (selectClips clips n)).isEmpty
        = true := by simp [hsv]
    have hev : generate_basic_trailer env uuid out n =
        finallyClean env (wsDirPath uuid)
          (Event.wsCreated (wsDirPath uuid) ::
            ([Event.transcribeCalled, Event.findClipsCalled] ++
              trimEventsOf (wsDirPath uuid) (selectClips clips n)))
          none := by
      rw [hgen, hchar, if_pos hie]
    rw [hev]
    refine ⟨?_, fun _ => ⟨?_, ?_⟩, fun hne => absurd hsv hne⟩
    · cases hdel : env.deleteWsRaises <;>
        simp [finallyClean, hdel, List.filter_append, List.filter_cons,
          Event.isTrim, trimEventsOf_filter]
    · cases hdel : env.deleteWsRaises <;> simp [finallyClean, hdel]
    · intro fs d hmem
      cases hdel : env.deleteWsRaises <;>
        simp [finallyClean, hdel] at hmem <;>
        exact concat_not_mem_trimEventsOf _ _ fs d hmem
  · have hie : ¬ ((survivorsOf env (wsDirPath uuid)
        (selectClips clips n)).isEmpty = true) := by
      rw [isEmpty_false_of_ne_nil hsv]
      exact Bool.false_ne_true
    have hbase : ∀ res : Option FsPath,
        (∀ fs d,
          Event.concatCalled fs d ∈
            (finallyClean env (wsDirPath uuid)
              (Event.wsCreated (wsDirPath uuid) ::
                ([Event.transcribeCalled, Event.findClipsCalled] ++
                  trimEventsOf (wsDirPath uuid) (selectClips clips n) ++
                  [Event.concatCalled
                    (survivorsOf env (wsDirPath uuid) (selectClips clips n))
                    out]))
              res).events →
          fs = survivorsOf env (wsDirPath uuid) (selectClips clips n)
            ∧ d = out) := by
      intro res fs d hmem
      cases hdel : env.deleteWsRaises <;>
        simp [finallyClean, hdel] at hmem <;>
        rcases hmem with hmem | hmem
      · exact absurd hmem (concat_not_mem_trimEventsOf _ _ fs d)
      · exact hmem
      · exact absurd hmem (concat_not_mem_trimEventsOf _ _ fs d)
      · exact hmem
    have hcount : ∀ res : Option FsPath,
        (finallyClean env (wsDirPath uuid)
          (Event.wsCreated (wsDirPath uuid) ::
            ([Event.transcribeCalled, Event.findClipsCalled] ++
              trimEventsOf (wsDirPath uuid) (selectClips clips n) ++
              [Event.concatCalled
                (survivorsOf env (wsDirPath uuid) (selectClips clips n)) out]))
          res).events.count
          (Event.concatCalled
            (survivorsOf env (wsDirPath uuid) (selectClips clips n)) out)
          = 1 := by
      intro res
      cases hdel : env.deleteWsRaises <;>
        simp [finallyClean, hdel, List.count_append, List.count_cons,
          trimEventsOf_count_concat]
    have hfil : ∀ res : Option FsPath,
        (finallyClean env (wsDirPath uuid)
          (Event.wsCreated (wsDirPath uuid) ::
            ([Event.transcribeCalled, Event.findClipsCalled] ++
              trimEventsOf (wsDirPath uuid) (selectClips clips n) ++
              [Event.concatCalled
                (survivorsOf env (wsDirPath uuid) (selectClips clips n)) out]))
          res).events.filter Event.isTrim
          = trimEventsOf (wsDirPath uuid) (selectClips clips n) := by
      intro res
      cases hdel : env.deleteWsRaises <;>
        simp [finallyClean, hdel, List.filter_append, List.filter_cons,
          Event.isTrim, trimEventsOf_filter]
    cases hco : env.concatenate
        (survivorsOf env (wsDirPath uuid) (selectClips clips n)) with
    | ok a =>
      have hev : generate_basic_trailer env uuid out n =
          finallyClean env (wsDirPath uuid)
            (Event.wsCreated (wsDirPath uuid) ::
              ([Event.transcribeCalled, Event.findClipsCalled] ++
                trimEventsOf (wsDirPath uuid) (selectClips clips n) ++
                [Event.concatCalled
                  (survivorsOf env (wsDirPath uuid) (selectClips clips n))
                  out]))
            (some out) := by
        rw [hgen, hchar, if_neg hie, hco]
      rw [hev]
      exact ⟨hfil _, fun heq => absurd heq hsv,
        fun _ => ⟨hcount _, hbase _⟩⟩
    | absent =>
      have hev : generate_basic_trailer env uuid out n =
          finallyClean env (wsDirPath uuid)
            (Event.wsCreated (wsDirPath uuid) ::
              ([Event.transcribeCalled, Event.findClipsCalled] ++
                trimEventsOf (wsDirPath uuid) (selectClips clips n) ++
                [Event.concatCalled
                  (survivorsOf env (wsDirPath uuid) (selectClips clips n))
                  out]))
            none := by
        rw [hgen, hchar, if_neg hie, hco]
      rw [hev]
      exact ⟨hfil _, fun heq => absurd heq hsv,
        fun _ => ⟨hcount _, hbase _⟩⟩
    | raises =>
      have hev : generate_basic_trailer env uuid out n =
          finallyClean env (wsDirPath uuid)
            (Event.wsCreated (wsDirPath uuid) ::
              ([Event.transcribeCalled, Event.findClipsCalled] ++
                trimEventsOf (wsDirPath uuid) (selectClips clips n) ++
                [Event.concatCalled
                  (survivorsOf env (wsDirPath uuid) (selectClips clips n))
                  out]))
            none := by
        rw [hgen, hchar, if_neg hie, hco]
      rw [hev]
      exact ⟨hfil _, fun heq => absurd heq hsv,
        fun _ => ⟨hcount _, hbase _⟩⟩

/-- Environment in which the trim of the clip at index 1 returns an
absent result and every other trim succeeds. -/
def mixedTrimEnv : Env :=
  { demoEnv with trim := fun i _ => if i == 1 then .absent else .ok () }

/-- Witness for C3: with the second trim failing, the survivors list is
the nonempty strict subset `[clip_0, clip_2]` and `concatenate` is called
exactly once with it. -/
theorem c3_trim_then_concat_witness :
    survivorsOf mixedTrimEnv (wsDirPath "u") (selectClips demoClips 5)
      = [clipDest (wsDirPath "u") 0, clipDest (wsDirPath "u") 2]
    ∧ (generate_basic_trailer mixedTrimEnv "u" ["tmp", "out.mp4"] 5).events.count
        (Event.concatCalled
          (survivorsOf mixedTrimEnv (wsDirPath "u") (selectClips demoClips 5))
          ["tmp", "out.mp4"]) = 1 :=
  ⟨by decide,
   ((c3_trim_then_concat mixedTrimEnv "u" ["tmp", "out.mp4"] 5 rfl rfl rfl rfl
      ["hello"] rfl demoClips rfl (by decide)
      (by
        intro j c
        simp only [mixedTrimEnv, demoEnv]
        split <;> simp)).2.2 (by decide)).1⟩

/-! ### Job model (src/app/main.py, process_trailer_generation_task)

The background job fetches the source from S3 into a job-scoped
processing directory, runs the pipeline, publishes the produced trailer,
deletes the local copy on successful publish, and removes the processing
directory in a `finally` clause.  `download_s3_file` and
`upload_file_to_s3` catch every exception internally and return `None` on
failure, so they are modelled as `Option`; the pipeline call may raise
(see C4), so it is an `Outcome`. -/

/-- Observable events of one background-job run, in program order. -/
inductive JEvent where
  | procDirCreated (p : FsPath)
  | fetchCalled (url : String)
  | pipelineCalled (src dst : FsPath)
  | uploadCalled (localFile : FsPath)
  | removedFile (p : FsPath)
  | removedTree (p : FsPath)
deriving DecidableEq

/-- Environment of one background-job run. -/
structure JobEnv where
  mkProcDirRaises : Bool
  download_s3_file : Option FsPath
  componentsRaise : Bool
  mkOutDirRaises : Bool
  pipeline : Outcome Unit
  outputExists : Bool
  upload_file_to_s3 : Option Unit
  removeRaises : Bool
  rmtreeRaises : Bool

/-- Base directory `settings.PROCESSING_TEMP_BASE_DIR`
(`/tmp/clipsai_processing`). -/
def processingBase : FsPath := ["tmp", "clipsai_processing"]

/-- Job workspace `{PROCESSING_TEMP_BASE_DIR}/{processing_id}`. -/
def procDirPath (pid : String) : FsPath := processingBase ++ [pid]

/-- Final trailer path `{output_trailer_base_dir}/{processing_id}_trailer.mp4`. -/
def finalTrailerPath (outBase : FsPath) (pid : String) : FsPath :=
  outBase ++ [pid ++ "_trailer.mp4"]

/-- Embedding of the `try` block of `process_trailer_generation_task`
(main.py lines 78-139): download, component construction, output-path
setup, pipeline invocation, conditional upload, conditional local-file
removal.  Every raise inside is caught by the `except` clause. -/
def jobTryBody (env : JobEnv) (s3url : String) (outBase : FsPath)
    (pid : String) : List JEvent :=
  match env.download_s3_file with
  | none => [JEvent.fetchCalled s3url]
  | some localPath =>
    if env.componentsRaise then [JEvent.fetchCalled s3url]
    else if env.mkOutDirRaises then [JEvent.fetchCalled s3url]
    else
      let finalPath := finalTrailerPath outBase pid
      let evs := [JEvent.fetchCalled s3url,
        JEvent.pipelineCalled localPath finalPath]
      match env.pipeline with
      | .raises => evs
      | .absent => evs
      | .ok _ =>
        if !env.outputExists then evs
        else
          let evs2 := evs ++ [JEvent.uploadCalled finalPath]
          match env.upload_file_to_s3 with
          | none => evs2
          | some _ =>
            if env.removeRaises then evs2
            else evs2 ++ [JEvent.removedFile finalPath]

/-- Embedding of the `finally` clause (main.py lines 142-151): if the
processing directory exists it is recursively removed; a raise from the
removal is caught and logged. -/
def jobFinally (env : JobEnv) (procDir : FsPath) (made : Bool)
    (evs : List JEvent) : List JEvent :=
  if made then
    if env.rmtreeRaises then evs else evs ++ [JEvent.removedTree procDir]
  else evs

/-- Embedding of `process_trailer_generation_task`: the event trace of one
background-job run.  If `os.makedirs(base_processing_dir)` raises, the
`except` clause catches it and the `finally` clause finds no directory to
remove. -/
def process_trailer_generation_task (env : JobEnv) (s3url : String)
    (outBase : FsPath) (pid : String) : List JEvent :=
  let procDir := procDirPath pid
  if env.mkProcDirRaises then jobFinally env procDir false []
  else
    jobFinally env procDir true
      (JEvent.procDirCreated procDir :: jobTryBody env s3url outBase pid)

/-- C6: when the S3 fetch returns an absent result (and the job directory
was created and its best-effort removal succeeds), the pipeline is never
invoked, no publish is attempted, and the job-scoped processing directory
is still removed before the task ends. -/
theorem c6_fetch_failure (env : JobEnv) (url : String) (outBase : FsPath)
    (pid : String) (hfetch : env.download_s3_file = none)
    (hmk : env.mkProcDirRaises = false) (hrm : env.rmtreeRaises = false) :
    (∀ s d, JEvent.pipelineCalled s d ∉
      process_trailer_generation_task env url outBase pid)
    ∧ (∀ p, JEvent.uploadCalled p ∉
        process_trailer_generation_task env url outBase pid)
    ∧ JEvent.removedTree (procDirPath pid) ∈
        process_trailer_generation_task env url outBase pid := by
  have htr : process_trailer_generation_task env url outBase pid =
      [JEvent.procDirCreated (procDirPath pid), JEvent.fetchCalled url,
        JEvent.removedTree (procDirPath pid)] := by
    unfold process_trailer_generation_task jobTryBody jobFinally
    simp [hfetch, hmk, hrm]
  rw [htr]
  refine ⟨fun s d => ?_, fun p => ?_, ?_⟩ <;> simp

/-- Witness for C6: a job whose fetch fails while everything else would
succeed. -/
def fetchFailJobEnv : JobEnv :=
  { mkProcDirRaises := false, download_s3_file := none,
    componentsRaise := false, mkOutDirRaises := false, pipeline := .ok (),
    outputExists := true, upload_file_to_s3 := some (), removeRaises := false,
    rmtreeRaises := false }

theorem c6_fetch_failure_witness :
    (∀ s d, JEvent.pipelineCalled s d ∉
      process_trailer_generation_task fetchFailJobEnv "s3://b/k" ["tmp", "o"] "j")
    ∧ JEvent.removedTree (procDirPath "j") ∈
        process_trailer_generation_task fetchFailJobEnv "s3://b/k" ["tmp", "o"] "j" :=
  ⟨(c6_fetch_failure fetchFailJobEnv "s3://b/k" ["tmp", "o"] "j" rfl rfl rfl).1,
   (c6_fetch_failure fetchFailJobEnv "s3://b/k" ["tmp", "o"] "j" rfl rfl rfl).2.2⟩

/-- C7: when the pipeline produced an output that exists on disk, a
successful publish is followed by deletion of the local output file, a
failed publish leaves it in place, and the job-workspace removal never
covers the output file (which lives outside the job workspace, whose name
embeds the fresh job id). -/
theorem c7_publish_then_local_delete (env : JobEnv) (url : String)
    (outBase : FsPath) (pid : String) (lp : FsPath)
    (hmk : env.mkProcDirRaises = false)
    (hdl : env.download_s3_file = some lp)
    (hcomp : env.componentsRaise = false) (hmo : env.mkOutDirRaises = false)
    (hpipe : env.pipeline = .ok ()) (hex : env.outputExists = true)
    (hrm : env.removeRaises = false)
    (hsep : dirLeads (procDirPath pid) (finalTrailerPath outBase pid) = false) :
    (∀ u, env.upload_file_to_s3 = some u →
      JEvent.removedFile (finalTrailerPath outBase pid) ∈
        process_trailer_generation_task env url outBase pid)
    ∧ (env.upload_file_to_s3 = none →
        ∀ p, JEvent.removedFile p ∉
          process_trailer_generation_task env url outBase pid)
    ∧ (∀ d, JEvent.removedTree d ∈
          process_trailer_generation_task env url outBase pid →
        dirLeads d (finalTrailerPath outBase pid) = false) := by
  cases hup : env.upload_file_to_s3 with
  | some u =>
    have htr : process_trailer_generation_task env url outBase pid =
        jobFinally env (procDirPath pid) true
          [JEvent.procDirCreated (procDirPath pid), JEvent.fetchCalled url,
            JEvent.pipelineCalled lp (finalTrailerPath outBase pid),
            JEvent.uploadCalled (finalTrailerPath outBase pid),
            JEvent.removedFile (finalTrailerPath outBase pid)] := by
      unfold process_trailer_generation_task jobTryBody
      simp [hmk, hdl, hcomp, hmo, hpipe, hex, hrm, hup]
    rw [htr]
    refine ⟨fun u' _ => ?_, fun hnone => ?_, fun d hd => ?_⟩
    · cases hrmt : env.rmtreeRaises <;> simp [jobFinally, hrmt]
    · exact Option.noConfusion hnone
    · revert hd
      cases hrmt : env.rmtreeRaises <;> simp [jobFinally, hrmt]
      intro hd
      rw [hd]
      exact hsep
  | none =>
    have htr : process_trailer_generation_task env url outBase pid =
        jobFinally env (procDirPath pid) true
          [JEvent.procDirCreated (procDirPath pid), JEvent.fetchCalled url,
            JEvent.pipelineCalled lp (finalTrailerPath outBase pid),
            JEvent.uploadCalled (finalTrailerPath outBase pid)] := by
      unfold process_trailer_generation_task jobTryBody
      simp [hmk, hdl, hcomp, hmo, hpipe, hex, hup]
    rw [htr]
    refine ⟨fun u' hu' => ?_, fun _ p => ?_, fun d hd => ?_⟩
    · exact Option.noConfusion hu'
    · cases hrmt : env.rmtreeRaises <;> simp [jobFinally, hrmt]
    · revert hd
      cases hrmt : env.rmtreeRaises <;> simp [jobFinally, hrmt]
      intro hd
      rw [hd]
      exact hsep

/-- All-success job environment. -/
def okJobEnv : JobEnv :=
  { fetchFailJobEnv with download_s3_file := some ["tmp", "src.mp4"] }

/-- Failed-publish job environment. -/
def failedUploadJobEnv : JobEnv :=
  { okJobEnv with upload_file_to_s3 := none }

/-- Witness for C7: on successful publish the local output file is
deleted; on failed publish it is left in place. -/
theorem c7_publish_then_local_delete_witness :
    JEvent.removedFile (finalTrailerPath ["tmp", "o"] "j") ∈
      process_trailer_generation_task okJobEnv "s3://b/k" ["tmp", "o"] "j"
    ∧ (∀ p, JEvent.removedFile p ∉
        process_trailer_generation_task failedUploadJobEnv "s3://b/k"
          ["tmp", "o"] "j") :=
  ⟨(c7_publish_then_local_delete okJobEnv "s3://b/k" ["tmp", "o"] "j"
      ["tmp", "src.mp4"] rfl rfl rfl rfl rfl rfl rfl (by decide)).1 () rfl,
   (c7_publish_then_local_delete failedUploadJobEnv "s3://b/k" ["tmp", "o"] "j"
      ["tmp", "src.mp4"] rfl rfl rfl rfl rfl rfl rfl (by decide)).2.1 rfl⟩

/-! ### S3 URL parsing and the scheduling endpoint
(src/app/s3_utils.py `parse_s3_url`, src/app/main.py `create_trailer`)

`parse_s3_url` relies on `urllib.parse.urlparse`; the fragment of its
behaviour exercised here is embedded faithfully: first-colon scheme
extraction with the alpha-then-scheme-chars validity test and
lowercasing, `//`-led netloc extraction up to the first `/`, `?` or `#`,
fragment/query stripping from the path, and the ValueError raised on a
netloc with unbalanced square brackets (caught by `parse_s3_url` and
turned into `None`).  Parameter (`;`) splitting does not apply because
the `s3` scheme is not in urllib's `uses_params` list, and schemes other
than `s3` are rejected outright. -/

/-- Characters urllib allows inside a URL scheme. -/
def isSchemeChar (c : Char) : Bool :=
  c.isAlphanum || c == '+' || c == '-' || c == '.'

/-- urllib's scheme validity test: nonempty, leading letter, and only
scheme characters. -/
def validScheme : List Char → Bool
  | [] => false
  | c :: cs => c.isAlpha && (c :: cs).all isSchemeChar

/-- Split at the first colon, returning the characters before it and
after it. -/
def schemeSplitAux (acc : List Char) : List Char → Option (List Char × List Char)
  | [] => none
  | c :: cs =>
    if c == ':' then some (acc.reverse, cs) else schemeSplitAux (c :: acc) cs

/-- Netloc extraction: the characters before the first `/`, `?` or `#`,
and the remainder from that delimiter on. -/
def netlocSplit : List Char → List Char × List Char
  | [] => ([], [])
  | c :: rest =>
    if c == '/' || c == '?' || c == '#' then ([], c :: rest)
    else
      let r := netlocSplit rest
      (c :: r.1, r.2)

/-- Path component: the remainder up to the first `?` or `#` (fragment
split precedes query split in urllib; the composition takes characters up
to whichever delimiter comes first). -/
def pathOf (cs : List Char) : List Char :=
  cs.takeWhile (fun c => !(c == '?' || c == '#'))

/-- Result of `urllib.parse.urlparse` restricted to the fields
`parse_s3_url` reads. -/
structure UrlParts where
  scheme : String
  netloc : String
  path : String
deriving DecidableEq, Repr

/-- Embedding of `urllib.parse.urlparse` on the consulted fields; `none`
models the ValueError raised for a netloc with unbalanced brackets. -/
def urlparse (url : String) : Option UrlParts :=
  let cs := url.toList
  let sp :=
    match schemeSplitAux [] cs with
    | none => (("" : String), cs)
    | some pr =>
      if validScheme pr.1 then (String.mk (pr.1.map Char.toLower), pr.2)
      else ("", cs)
  match sp.2 with
  | '/' :: '/' :: rest2 =>
    let nl := netlocSplit rest2
    if (nl.1.contains '[' && !nl.1.contains ']')
        || (nl.1.contains ']' && !nl.1.contains '[') then none
    else some ⟨sp.1, String.mk nl.1, String.mk (pathOf nl.2)⟩
  | _ => some ⟨sp.1, "", String.mk (pathOf sp.2)⟩

/-- Embedding of `parse_s3_url`: reject unless the scheme is `s3`, the
netloc is nonempty and the path stripped of leading slashes is nonempty;
otherwise return the bucket and key. -/
def parse_s3_url (s3_url : String) : Option (String × String) :=
  match urlparse s3_url with
  | none => none
  | some p =>
    let key := p.path.toList.dropWhile (fun c => c == '/')
    if p.scheme != "s3" || p.netloc == "" || key.isEmpty then none
    else some (p.netloc, String.mk key)

/-- Response body of the scheduling endpoint. -/
structure BackgroundTaskResponse where
  message : String
  processing_id : String
  s3_movie_url : String
deriving DecidableEq, Repr

/-- The background task recorded by `background_tasks.add_task`: it is
scheduled, not executed, before the response is returned. -/
structure ScheduledTask where
  s3_url : String
  output_trailer_base_dir : FsPath
  processing_id : String
deriving DecidableEq, Repr

/-- Outcome of one request to the endpoint: a response together with the
scheduled (not yet run) task, or an HTTP error with no scheduled task. -/
inductive EndpointResult where
  | ok (resp : BackgroundTaskResponse) (task : ScheduledTask)
  | httpError (code : Nat)
deriving DecidableEq, Repr

/-- `settings.OUTPUT_TRAILER_STORAGE_DIR` (`/tmp/clipsai_trailers_output`). -/
def outputTrailerStorageDir : FsPath := ["tmp", "clipsai_trailers_output"]

/-- Embedding of the `create_trailer` endpoint (main.py lines 169-211):
validate the locator, then schedule the background task and immediately
return the fresh processing id together with the submitted locator; an
invalid locator yields HTTP 400 and schedules nothing. -/
def create_trailer (s3_movie_url : String) (freshId : String) : EndpointResult :=
  match parse_s3_url s3_movie_url with
  | none => .httpError 400
  | some _ =>
    .ok ⟨"Trailer generation task started in background.", freshId, s3_movie_url⟩
      ⟨s3_movie_url, outputTrailerStorageDir, freshId⟩

/-- C8: a syntactically valid s3 locator makes the request succeed
immediately — before any processing work, since the returned value only
records the scheduled task — echoing the submitted locator next to the
fresh identifier; any other locator yields HTTP 400 with no task
scheduled.  The concrete conjuncts pin `parse_s3_url` to the repository's
own test vectors. -/
theorem c8_schedule_endpoint (url freshId : String) :
    ((parse_s3_url url).isSome →
      create_trailer url freshId =
        .ok ⟨"Trailer generation task started in background.", freshId, url⟩
          ⟨url, outputTrailerStorageDir, freshId⟩)
    ∧ ((parse_s3_url url).isNone →
        create_trailer url freshId = .httpError 400)
    ∧ parse_s3_url "s3://my-bucket/my/key/file.mp4"
        = some ("my-bucket", "my/key/file.mp4")
    ∧ parse_s3_url "http://my-bucket/my/key/file.mp4" = none
    ∧ parse_s3_url "s3:///my/key/file.mp4" = none
    ∧ parse_s3_url "s3://my-bucket/" = none
    ∧ parse_s3_url "s3://my-bucket" = none
    ∧ parse_s3_url "" = none
    ∧ parse_s3_url "s3:/my-bucket/key" = none := by
  refine ⟨?_, ?_, by decide, by decide, by decide, by decide, by decide,
    by decide, by decide⟩
  · intro h
    unfold create_trailer
    cases hp : parse_s3_url url with
    | none => rw [hp] at h; exact absurd h (by simp)
    | some v => rfl
  · intro h
    have hp : parse_s3_url url = none := Option.eq_none_iff_forall_not_mem.mpr
      (fun a ha => by
        rw [Option.isNone_iff_eq_none] at h
        rw [h] at ha
        exact Option.noConfusion ha)
    unfold create_trailer
    rw [hp]

/-- Witness for C8: a valid locator is accepted and echoed; an invalid
scheme is rejected with HTTP 400. -/
theorem c8_schedule_endpoint_witness :
    create_trailer "s3://my-bucket/my/key/file.mp4" "id-1" =
      .ok ⟨"Trailer generation task started in background.", "id-1",
            "s3://my-bucket/my/key/file.mp4"⟩
        ⟨"s3://my-bucket/my/key/file.mp4", outputTrailerStorageDir, "id-1"⟩
    ∧ create_trailer "http://my-bucket/my/key/file.mp4" "id-2" =
        .httpError 400 :=
  ⟨(c8_schedule_endpoint "s3://my-bucket/my/key/file.mp4" "id-1").1 (by decide),
   (c8_schedule_endpoint "http://my-bucket/my/key/file.mp4" "id-2").2.1
     (by decide)⟩

end ClipsAI
